import Mathlib

/-!
Verification development for the storymaker repository.

The definitions below are a shallow embedding of the code:
* `src/src/job-store.ts` — job records, the in-memory store and the Azure
  table store (entities with string-encoded optional fields);
* `src/unnamed/part_000` (the frame-by-frame recorder) — the animation
  control script, the capture loop and `recordStory`'s failure semantics;
* `src/src/web-service.ts` — `processVideoJob`, `handleCreateVideo` and
  `serveVideo`.

JavaScript numbers used by the code for timestamps and frame arithmetic are
modelled as `Int` (millisecond clocks) and `ℚ` (frame arithmetic); dates are
millisecond integers.  Effectful steps (browser, ffmpeg, network) are
modelled by environments/oracles recording each step's outcome, so every
definition stays executable.
-/

namespace Storymaker

/-! ## Job store data model (src/src/job-store.ts) -/

inductive JobStatus where
  | pending
  | processing
  | completed
  | failed
deriving DecidableEq, Repr

def JobStatus.isTerminal : JobStatus → Bool
  | .completed => true
  | .failed => true
  | _ => false

structure JobRequest where
  site : String
  slug : String
  postType : String
  template : String
deriving DecidableEq, Repr

structure JobResult where
  url : String
  thumbnailUrl : Option String
deriving DecidableEq, Repr

/-- A job record.  `createdAt`/`updatedAt` are millisecond timestamps. -/
structure Job where
  id : String
  status : JobStatus
  request : JobRequest
  progress : Option String
  result : Option JobResult
  error : Option String
  createdAt : Int
  updatedAt : Int
deriving DecidableEq, Repr

/-- A `Partial` update object for `update(id, updates)`.  An outer `none`
means the field is absent from the object; `some none` models a field that
is present but set to `undefined` (which the spread `{...job, ...updates}`
does write). -/
structure JobUpdates where
  status : Option JobStatus
  request : Option JobRequest
  progress : Option (Option String)
  result : Option (Option JobResult)
  error : Option (Option String)
deriving DecidableEq, Repr

/-- `{ ...job, ...updates, updatedAt: new Date() }` -/
def applyUpdates (j : Job) (u : JobUpdates) (now : Int) : Job :=
  { id := j.id
    status := u.status.getD j.status
    request := u.request.getD j.request
    progress := u.progress.getD j.progress
    result := u.result.getD j.result
    error := u.error.getD j.error
    createdAt := j.createdAt
    updatedAt := now }

/-- The fields of `Omit<Job, "createdAt" | "updatedAt">` passed to
`create`. -/
structure NewJob where
  id : String
  status : JobStatus
  request : JobRequest
  progress : Option String
  result : Option JobResult
  error : Option String
deriving DecidableEq, Repr

def NewJob.toJob (n : NewJob) (now : Int) : Job :=
  { id := n.id
    status := n.status
    request := n.request
    progress := n.progress
    result := n.result
    error := n.error
    createdAt := now
    updatedAt := now }

/-! ### In-memory store (`InMemoryJobStore`)

The backing `Map<string, Job>` is modelled as a list of jobs whose ids act
as keys; `Map.get` is the first match, `Map.set` replaces the existing
entry or appends. -/

def findJob (s : List Job) (id : String) : Option Job :=
  s.find? (fun j => j.id == id)

def setJob (s : List Job) (j : Job) : List Job :=
  if s.any (fun x => x.id == j.id) then
    s.map (fun x => if x.id == j.id then j else x)
  else
    s ++ [j]

/-- `InMemoryJobStore.create`: stores the record with both timestamps set
to now.  It never fails; a colliding id silently replaces the entry. -/
def memCreate (s : List Job) (n : NewJob) (now : Int) : Job × List Job :=
  let full := n.toJob now
  (full, setJob s full)

/-- `InMemoryJobStore.update`: merge the provided fields and bump
`updatedAt`; `none` when the id is unknown. -/
def memUpdate (s : List Job) (id : String) (u : JobUpdates) (now : Int) :
    Option Job × List Job :=
  match findJob s id with
  | none => (none, s)
  | some j =>
    let j2 := applyUpdates j u now
    (some j2, s.map (fun x => if x.id == id then j2 else x))

/-- The deletion predicate of `InMemoryJobStore.cleanup`: only completed or
failed jobs strictly older than the cutoff. -/
def cleanupMatch (j : Job) (cutoff : Int) : Bool :=
  (j.status == .completed || j.status == .failed) && j.updatedAt < cutoff

/-- `InMemoryJobStore.cleanup`: delete every matching record and return the
count removed. -/
def memCleanup (s : List Job) (maxAgeMs now : Int) : Nat × List Job :=
  let cutoff := now - maxAgeMs
  ((s.filter (fun j => cleanupMatch j cutoff)).length,
   s.filter (fun j => !cleanupMatch j cutoff))

/-! ### Azure table store (`AzureTableJobStore`)

Entities store `progress` and `error` as plain strings with `""` meaning
absent (`job.progress || ""` on write, `(entity.progress) || undefined` on
read); `request`/`result` are JSON round-trips, modelled as identities; ISO
date strings compare chronologically, modelled as `Int`. -/

structure JobEntity where
  rowKey : String
  status : JobStatus
  request : JobRequest
  progress : String
  result : Option JobResult
  error : String
  createdAt : Int
  updatedAt : Int
deriving DecidableEq, Repr

def jobToEntity (j : Job) : JobEntity :=
  { rowKey := j.id
    status := j.status
    request := j.request
    progress := j.progress.getD ""
    result := j.result
    error := j.error.getD ""
    createdAt := j.createdAt
    updatedAt := j.updatedAt }

/-- `s || undefined` applied when converting an entity back to a job. -/
def strOpt (s : String) : Option String :=
  if s = "" then none else some s

def entityToJob (e : JobEntity) : Job :=
  { id := e.rowKey
    status := e.status
    request := e.request
    progress := strOpt e.progress
    result := e.result
    error := strOpt e.error
    createdAt := e.createdAt
    updatedAt := e.updatedAt }

def azureGet (s : List JobEntity) (id : String) : Option Job :=
  (s.find? (fun e => e.rowKey == id)).map entityToJob

/-- `AzureTableJobStore.create`: `createEntity` throws (modelled as `none`)
exactly when the row key already exists. -/
def azureCreate (s : List JobEntity) (n : NewJob) (now : Int) :
    Option (Job × List JobEntity) :=
  if s.any (fun e => e.rowKey == n.id) then none
  else
    let full := n.toJob now
    some (full, s ++ [jobToEntity full])

/-- `AzureTableJobStore.update`: read the record back, merge, bump
`updatedAt`, replace the entity. -/
def azureUpdate (s : List JobEntity) (id : String) (u : JobUpdates)
    (now : Int) : Option Job × List JobEntity :=
  match azureGet s id with
  | none => (none, s)
  | some g =>
    let j2 := applyUpdates g u now
    (some j2, s.map (fun e => if e.rowKey == id then jobToEntity j2 else e))

/-- The filter of `AzureTableJobStore.cleanup`'s query:
`updatedAt lt cutoff and (status eq completed or status eq failed)`. -/
def azureCleanupMatch (e : JobEntity) (cutoff : Int) : Bool :=
  e.updatedAt < cutoff && (e.status == .completed || e.status == .failed)

/-- `AzureTableJobStore.cleanup`: delete every entity matched by the query
and return the count. -/
def azureCleanup (s : List JobEntity) (maxAgeMs now : Int) :
    Nat × List JobEntity :=
  let cutoff := now - maxAgeMs
  ((s.filter (fun e => azureCleanupMatch e cutoff)).length,
   s.filter (fun e => !azureCleanupMatch e cutoff))

/-! ## Animation control script (src/unnamed/part_000, lines 26-60)

`seekTo(timeMs)` reads each animation's timing, computes a maximum time and
clamps. `timing.duration`, `timing.iterations` and `timing.delay` may be
absent; `x || d` on a number is modelled by `jsOr` (`0` is falsy). An
unbounded iteration count is the one non-numeric value the script tests
for (`timing.iterations === Infinity`). -/

inductive JsIter where
  | num (c : ℚ)
  | inf
deriving DecidableEq, Repr

structure AnimTiming where
  duration : Option ℚ
  iterations : Option JsIter
  delay : Option ℚ
deriving DecidableEq, Repr

/-- JavaScript `x || d` for an optional number (`undefined` and `0` both
fall back). -/
def jsOr (x : Option ℚ) (d : ℚ) : ℚ :=
  match x with
  | none => d
  | some v => if v = 0 then d else v

/-- `timing.iterations || 1` in the non-`Infinity` branch. -/
def iterOr1 (x : Option JsIter) : ℚ :=
  match x with
  | none => 1
  | some .inf => 1
  | some (.num c) => if c = 0 then 1 else c

/-- The `maxTime` computed by `__seekTo` for an animation with timing
information. -/
def seekMaxTime (t : AnimTiming) : ℚ :=
  let iterationDuration := jsOr t.duration 0
  match t.iterations with
  | some .inf => iterationDuration
  | _ => iterationDuration * iterOr1 t.iterations + jsOr t.delay 0

/-- The `currentTime` written by `__seekTo(timeMs)`: clamped when timing
information is available, raw otherwise. -/
def seekWrite (timing : Option AnimTiming) (timeMs : ℚ) : ℚ :=
  match timing with
  | some t => min timeMs (seekMaxTime t)
  | none => timeMs

/-- The maximum as worded by the spec sentence under check: for finite
animations literally `iterationDuration × iterationCount + delay` (no
fallback on a zero iteration count). Modelled from the spec for
comparison with `seekMaxTime`. -/
def specSeekMax (t : AnimTiming) : ℚ :=
  match t.iterations with
  | some .inf => jsOr t.duration 0
  | some (.num c) => jsOr t.duration 0 * c + jsOr t.delay 0
  | none => jsOr t.duration 0 * 1 + jsOr t.delay 0

/-! ## Frame capture engine (src/unnamed/part_000, `recordStory`) -/

structure RecorderResult where
  success : Bool
  outputPath : String
  thumbnailPath : Option String
  error : Option String
deriving DecidableEq, Repr

structure RecorderOptions where
  url : String
  outputPath : String
  frameRate : Option ℚ
  duration : Option ℚ
deriving DecidableEq, Repr

/-- Outcomes of the recorder's effectful steps.  `Except.error msg` models
a step throwing an error whose `.message` is `msg`.  `readyAt` is the
instant (ms after navigation) at which the page calls the exposed
`storyReady` hook, `none` if it never does.  `ffmpegExit`/`thumbExit` are
the exit statuses of the two encoder invocations. -/
structure RecorderEnv where
  launch : Except String Unit
  newPage : Except String Unit
  setViewport : Except String Unit
  exposeReady : Except String Unit
  exposeDone : Except String Unit
  goto : Except String Unit
  readyAt : Option Int
  fontsReady : Except String Unit
  evalAnim : Except String Nat
  mkdtemp : Except String String
  seek : ℚ → Except String Unit
  screenshot : Nat → Except String Unit
  ffmpegExit : Int
  ffmpegStderr : String
  thumbExit : Int
  thumbStderr : String

def readyTimeoutMsg : String := "Timeout waiting for page ready (30s)"

/-- `Promise.race([readyPromise, readyTimeout])`: the ready signal wins
only if it arrives before the 30000 ms timer fires. -/
def raceReady (readyAt : Option Int) : Except String Unit :=
  match readyAt with
  | some t => if t < 30000 then Except.ok () else Except.error readyTimeoutMsg
  | none => Except.error readyTimeoutMsg

/-- `Math.ceil((duration / 1000) * frameRate)` -/
def totalFramesZ (duration frameRate : ℚ) : Int :=
  ⌈duration / 1000 * frameRate⌉

/-- Number of loop iterations of `for (frame = 0; frame < totalFrames; ...)`. -/
def totalFramesN (duration frameRate : ℚ) : Nat :=
  (totalFramesZ duration frameRate).toNat

/-- `frameInterval = 1000 / frameRate` -/
def frameIntervalMs (frameRate : ℚ) : ℚ := 1000 / frameRate

/-- `timeMs = frame * frameInterval` -/
def frameTimestamp (frameRate : ℚ) (k : Nat) : ℚ :=
  (k : ℚ) * frameIntervalMs frameRate

/-- `String(frame).padStart(4, "0")` -/
def padStart (s : String) (n : Nat) (c : Char) : String :=
  String.mk (List.replicate (n - s.length) c) ++ s

def frameName (k : Nat) : String :=
  "frame_" ++ padStart (toString k) 4 '0' ++ ".png"

/-- `join(tempDir, frame_XXXX.png)` -/
def framePath (dir : String) (k : Nat) : String :=
  dir ++ "/" ++ frameName k

/-- `await`-style sequencing of two effectful steps: an error raised by
the first short-circuits past the second (the `Except` monad's bind,
written out so proofs can reduce it step by step). -/
def stepBind {α β : Type} (x : Except String α)
    (f : α → Except String β) : Except String β :=
  match x with
  | Except.ok a => f a
  | Except.error e => Except.error e

/-- One iteration of the capture loop: seek the animations to the frame's
timestamp, then screenshot to the frame's file.  Returns the persisted
(timestamp, path) pair. -/
def captureFrame (env : RecorderEnv) (dir : String) (frameRate : ℚ)
    (k : Nat) : Except String (ℚ × String) :=
  stepBind (env.seek (frameTimestamp frameRate k)) (fun _ =>
    stepBind (env.screenshot k) (fun _ =>
      Except.ok (frameTimestamp frameRate k, framePath dir k)))

/-- The strictly sequential capture loop over the given frame indices:
each frame must complete before the next seek happens, and the first
failure aborts the loop. -/
def captureList (env : RecorderEnv) (dir : String) (frameRate : ℚ) :
    List Nat → Except String (List (ℚ × String))
  | [] => Except.ok []
  | k :: ks =>
    stepBind (captureFrame env dir frameRate k) (fun f =>
      stepBind (captureList env dir frameRate ks) (fun rest =>
        Except.ok (f :: rest)))

def ffmpegFailedPrefix : String := "FFmpeg failed: "

def mp4Suffix : String := ".mp4"

def jpgSuffix : String := ".jpg"

/-- `outputPath.replace(/\.mp4$/, ".jpg")` -/
def thumbnailPathOf (outputPath : String) : String :=
  if mp4Suffix.data.isSuffixOf outputPath.data then
    String.mk (outputPath.data.take (outputPath.data.length - 4)) ++ jpgSuffix
  else outputPath

/-- The body of `recordStory`'s `try` block.  Returns the persisted frame
list together with the `RecorderResult` the body returns; `Except.error`
models an exception escaping to the `catch`. -/
def recordStoryE (env : RecorderEnv) (opts : RecorderOptions) :
    Except String (List (ℚ × String) × RecorderResult) :=
  let frameRate := opts.frameRate.getD 25
  let duration := opts.duration.getD 10000
  stepBind env.launch (fun _ =>
  stepBind env.newPage (fun _ =>
  stepBind env.setViewport (fun _ =>
  stepBind env.exposeReady (fun _ =>
  stepBind env.exposeDone (fun _ =>
  stepBind env.goto (fun _ =>
  stepBind (raceReady env.readyAt) (fun _ =>
  stepBind env.fontsReady (fun _ =>
  stepBind env.evalAnim (fun _ =>
  stepBind env.mkdtemp (fun tempDir =>
  stepBind (captureList env tempDir frameRate
      (List.range (totalFramesN duration frameRate))) (fun frames =>
    if env.ffmpegExit ≠ 0 then
      Except.ok (frames,
        { success := false
          outputPath := opts.outputPath
          thumbnailPath := none
          error := some (ffmpegFailedPrefix ++ env.ffmpegStderr) })
    else if env.thumbExit ≠ 0 then
      Except.ok (frames,
        { success := true
          outputPath := opts.outputPath
          thumbnailPath := none
          error := none })
    else
      Except.ok (frames,
        { success := true
          outputPath := opts.outputPath
          thumbnailPath := some (thumbnailPathOf opts.outputPath)
          error := none }))))))))))))

/-- `recordStory`: the `try`/`catch` wrapper — every escaping error is
converted into a failure result carrying its message. -/
def recordStory (env : RecorderEnv) (opts : RecorderOptions) :
    RecorderResult :=
  match recordStoryE env opts with
  | Except.ok (_, r) => r
  | Except.error msg =>
    { success := false
      outputPath := opts.outputPath
      thumbnailPath := none
      error := some msg }

/-- The frames persisted by a run of `recordStory` (the observable effect
of the capture loop). -/
def recordedFrames (env : RecorderEnv) (opts : RecorderOptions) :
    Except String (List (ℚ × String)) :=
  (recordStoryE env opts).map Prod.fst

/-- All steps up to and including the capture loop succeed. -/
def RecorderEnv.stepsOk (env : RecorderEnv) (dir : String) : Prop :=
  env.launch = Except.ok () ∧
  env.newPage = Except.ok () ∧
  env.setViewport = Except.ok () ∧
  env.exposeReady = Except.ok () ∧
  env.exposeDone = Except.ok () ∧
  env.goto = Except.ok () ∧
  raceReady env.readyAt = Except.ok () ∧
  env.fontsReady = Except.ok () ∧
  (∃ n, env.evalAnim = Except.ok n) ∧
  env.mkdtemp = Except.ok dir ∧
  (∀ t, env.seek t = Except.ok ()) ∧
  (∀ k, env.screenshot k = Except.ok ())

/-! ## Background job processor (src/src/web-service.ts, `processVideoJob`)

`processVideoJob` is modelled as the ordered list of `update` payloads it
writes into the job store.  External outcomes (the recorder result, blob
storage configuration and upload results, progress callbacks, and a
possible exception thrown between updates) are supplied by a `ProcOracle`.
The first statement of the `try` block is the update to `processing` and
the in-memory store's `update` does not throw, so an exception can only
occur after at least one update has been written; it can never occur after
the terminal update, which is the last statement of its branch. -/

def updProcessing : JobUpdates :=
  { status := some .processing
    request := none
    progress := some (some ("Initializing"))
    result := none
    error := none }

def updProgress (m : String) : JobUpdates :=
  { status := none
    request := none
    progress := some (some m)
    result := none
    error := none }

/-- `{ status: "completed", progress: undefined, result: {...} }` -/
def updCompleted (url : String) (thumbnailUrl : Option String) : JobUpdates :=
  { status := some .completed
    request := none
    progress := some none
    result := some (some { url := url, thumbnailUrl := thumbnailUrl })
    error := none }

/-- `{ status: "failed", progress: undefined, error: e }` -/
def updFailed (e : Option String) : JobUpdates :=
  { status := some .failed
    request := none
    progress := some none
    result := none
    error := some e }

structure ProcOracle where
  recResult : RecorderResult
  blobEnabled : Bool
  blobUrl : Option String
  thumbBlobUrl : Option String
  progressMsgs : List String
  localVideoUrl : String
  localThumbUrl : String
  exc : Option (Nat × String)

/-- The progress updates of the upload phase on the success path. -/
def procUploadUpdates (o : ProcOracle) : List JobUpdates :=
  if o.blobEnabled then
    match o.blobUrl with
    | some _ =>
      match o.recResult.thumbnailPath with
      | some _ => [updProgress ("Uploading thumbnail")]
      | none => []
    | none => []
  else []

/-- The video URL stored on completion: the blob URL when upload
succeeded, the local `/videos/` fallback otherwise. -/
def procVideoUrl (o : ProcOracle) : String :=
  if o.blobEnabled then
    match o.blobUrl with
    | some u => u
    | none => o.localVideoUrl
  else o.localVideoUrl

/-- The thumbnail URL stored on completion. -/
def procThumbUrl (o : ProcOracle) : Option String :=
  if o.blobEnabled then
    match o.blobUrl with
    | some _ =>
      match o.recResult.thumbnailPath with
      | some _ => o.thumbBlobUrl
      | none => none
    | none => o.recResult.thumbnailPath.map (fun _ => o.localThumbUrl)
  else o.recResult.thumbnailPath.map (fun _ => o.localThumbUrl)

/-- The non-terminal updates written after the `processing` update. -/
def procBodyRest (o : ProcOracle) : List JobUpdates :=
  updProgress ("Recording video") ::
    (o.progressMsgs.map updProgress ++
      (if o.recResult.success then
        updProgress ("Uploading video") :: procUploadUpdates o
      else []))

/-- All non-terminal updates written by the `try` block, in order. -/
def procBody (o : ProcOracle) : List JobUpdates :=
  updProcessing :: procBodyRest o

/-- The terminal update of the `try` block. -/
def procTerminal (o : ProcOracle) : JobUpdates :=
  if o.recResult.success then updCompleted (procVideoUrl o) (procThumbUrl o)
  else updFailed o.recResult.error

/-- The full ordered list of updates `processVideoJob` writes.  With
`exc = some (k, msg)` an exception interrupts the body after its first `k`
updates and the `catch` block writes the failure update. -/
def processVideoJob (o : ProcOracle) : List JobUpdates :=
  match o.exc with
  | none => procBody o ++ [procTerminal o]
  | some (k, msg) => (procBody o).take k ++ [updFailed (some msg)]

/-- An exception can only be raised once the `processing` update has been
written (the first statement of the `try` block). -/
def ProcOracle.validExc (o : ProcOracle) : Prop :=
  ∀ k msg, o.exc = some (k, msg) → 1 ≤ k

/-- The sequence of stored statuses a job goes through: `pending` from
`create`, then every status carried by an update. -/
def statusTrace (updates : List JobUpdates) : List JobStatus :=
  JobStatus.pending :: updates.filterMap (fun u => u.status)

/-- The one-directional transition relation of the spec. -/
def allowedTransition : JobStatus → JobStatus → Bool
  | .pending, .processing => true
  | .processing, .completed => true
  | .processing, .failed => true
  | _, _ => false

/-- Fold a list of updates over a job record (what the store holds after
the processor ran; `status`, `result` and `error` do not depend on the
update instants). -/
def applyTrace (j : Job) (updates : List JobUpdates) (now : Int) : Job :=
  updates.foldl (fun acc u => applyUpdates acc u now) j

/-! ## Job creation (src/src/web-service.ts, `handleCreateVideo`)

`handleCreateVideo` generates an id and stores
`{ id, status: "pending", request }`. -/

def newVideoJob (id : String) (req : JobRequest) : NewJob :=
  { id := id
    status := .pending
    request := req
    progress := none
    result := none
    error := none }

/-! ## Video serving (src/src/web-service.ts, `serveVideo`) -/

/-- Remove the first occurrence of `pat` from `l`
(JavaScript `String.replace(pat, "")` with a string pattern). -/
def removeFirst (l pat : List Char) : List Char :=
  match l with
  | [] => []
  | c :: rest =>
    if pat.isPrefixOf (c :: rest) then rest.drop (pat.length - 1)
    else c :: removeFirst rest pat

def stringRemoveFirst (s pat : String) : String :=
  String.mk (removeFirst s.data pat.data)

/-- JavaScript `String.includes(pat)`. -/
def containsSub (l pat : List Char) : Bool :=
  match l with
  | [] => pat.isEmpty
  | _ :: rest => pat.isPrefixOf l || containsSub rest pat

def strIncludes (s pat : String) : Bool :=
  containsSub s.data pat.data

def videosRoute : String := "/videos/"

def dotDot : String := ".."

def slash : String := "/"

/-- The filename `serveVideo` extracts from the request path. -/
def extractFilename (pathname : String) : String :=
  stringRemoveFirst pathname videosRoute

/-- What `serveVideo` does before answering: either it answers 403
immediately, or it looks up exactly one path on the filesystem (answering
404 when absent). -/
inductive ServeOutcome where
  | forbidden
  | fsLookup (filePath : String)
deriving DecidableEq, Repr

/-- `serveVideo(pathname)` with the videos directory abstracted. -/
def serveVideo (videosDir pathname : String) : ServeOutcome :=
  let filename := extractFilename pathname
  if strIncludes filename dotDot || strIncludes filename slash then
    ServeOutcome.forbidden
  else
    ServeOutcome.fsLookup (videosDir ++ slash ++ filename)

/-! ## Concrete inputs used by the witness theorems -/

/-- A recorder environment in which every step succeeds. -/
def okEnv : RecorderEnv :=
  { launch := Except.ok ()
    newPage := Except.ok ()
    setViewport := Except.ok ()
    exposeReady := Except.ok ()
    exposeDone := Except.ok ()
    goto := Except.ok ()
    readyAt := some 120
    fontsReady := Except.ok ()
    evalAnim := Except.ok 3
    mkdtemp := Except.ok ("tmp")
    seek := fun _ => Except.ok ()
    screenshot := fun _ => Except.ok ()
    ffmpegExit := 0
    ffmpegStderr := ""
    thumbExit := 0
    thumbStderr := "" }

def okEnv_stepsOk : okEnv.stepsOk "tmp" :=
  ⟨rfl, rfl, rfl, rfl, rfl, rfl, rfl, rfl, ⟨3, rfl⟩, rfl,
   fun _ => rfl, fun _ => rfl⟩

def envFfmpegFail : RecorderEnv :=
  { okEnv with ffmpegExit := 1, ffmpegStderr := "encoder exploded" }

def envThumbFail : RecorderEnv :=
  { okEnv with thumbExit := 1, thumbStderr := "thumb exploded" }

def envNoReady : RecorderEnv :=
  { okEnv with readyAt := none }

def envLaunchFail : RecorderEnv :=
  { okEnv with launch := Except.error ("browser did not start") }

def opts0 : RecorderOptions :=
  { url := "http://localhost/t"
    outputPath := "out.mp4"
    frameRate := some 25
    duration := some 200 }

def req0 : JobRequest :=
  { site := "aje", slug := "x", postType := "post", template := "default" }

def jobDoneOld : Job :=
  { id := "done"
    status := .completed
    request := req0
    progress := none
    result := some { url := "u", thumbnailUrl := none }
    error := none
    createdAt := 0
    updatedAt := 0 }

def jobPendOld : Job :=
  { id := "pend"
    status := .pending
    request := req0
    progress := none
    result := none
    error := none
    createdAt := 0
    updatedAt := 0 }

def entDoneOld : JobEntity := jobToEntity jobDoneOld

def entPendOld : JobEntity := jobToEntity jobPendOld

def oracle0 : ProcOracle :=
  { recResult :=
      { success := true, outputPath := "out.mp4", thumbnailPath := none,
        error := none }
    blobEnabled := false
    blobUrl := none
    thumbBlobUrl := none
    progressMsgs := ["Capturing frames (1/5)"]
    localVideoUrl := "http://localhost:8080/videos/v.mp4"
    localThumbUrl := "http://localhost:8080/videos/v.jpg"
    exc := none }

def oracleTimeout : ProcOracle :=
  { oracle0 with recResult := recordStory envNoReady opts0 }

/-- Timing with a zero iteration count (counterexample input). -/
def animZeroIter : AnimTiming :=
  { duration := some 100, iterations := some (JsIter.num 0), delay := none }

/-- Timing with two iterations and a delay (witness input). -/
def animTwoIter : AnimTiming :=
  { duration := some 100, iterations := some (JsIter.num 2), delay := some 5 }

/-! ## Helper lemmas -/

theorem filter_length_partition {α : Type} (p : α → Bool) (l : List α) :
    (l.filter p).length + (l.filter (fun a => !p a)).length = l.length := by
  induction l with
  | nil => rfl
  | cons a t ih =>
    cases h : p a
    · simp [List.filter_cons, h]
      omega
    · simp [List.filter_cons, h]
      omega

theorem cleanupMatch_false_iff (j : Job) (cutoff : Int) :
    (!cleanupMatch j cutoff) = true ↔
      ¬(JobStatus.isTerminal j.status = true ∧ j.updatedAt < cutoff) := by
  obtain ⟨i, st, rq, pg, rs, er, ca, ua⟩ := j
  cases st <;> simp [cleanupMatch, JobStatus.isTerminal]

theorem cleanupMatch_true_iff (j : Job) (cutoff : Int) :
    cleanupMatch j cutoff = true ↔
      (JobStatus.isTerminal j.status = true ∧ j.updatedAt < cutoff) := by
  obtain ⟨i, st, rq, pg, rs, er, ca, ua⟩ := j
  cases st <;> simp [cleanupMatch, JobStatus.isTerminal]

theorem azureCleanupMatch_false_iff (e : JobEntity) (cutoff : Int) :
    (!azureCleanupMatch e cutoff) = true ↔
      ¬(JobStatus.isTerminal e.status = true ∧ e.updatedAt < cutoff) := by
  obtain ⟨i, st, rq, pg, rs, er, ca, ua⟩ := e
  cases st <;> simp [azureCleanupMatch, JobStatus.isTerminal]

theorem find?_append_singleton {α : Type} (p : α → Bool) (l : List α)
    (a : α) (h : l.any p = false) (ha : p a = true) :
    (l ++ [a]).find? p = some a := by
  induction l with
  | nil => simp [List.find?, ha]
  | cons b t ih =>
    rw [List.any_cons] at h
    have hb : p b = false := by
      cases hpb : p b
      · rfl
      · rw [hpb] at h; simp at h
    have ht : t.any p = false := by
      cases hta : t.any p
      · rfl
      · rw [hta] at h; simp at h
    simpa [List.find?_cons, hb] using ih ht

theorem find?_replace_aux (id : String) (j : Job) (hj : (j.id == id) = true) :
    ∀ s : List Job, s.any (fun x => x.id == id) = true →
      (s.map (fun x => if x.id == id then j else x)).find?
        (fun x => x.id == id) = some j := by
  intro s
  induction s with
  | nil => intro h; simp at h
  | cons a t ih =>
    intro hany
    by_cases ha : (a.id == id) = true
    · rw [List.map_cons, if_pos ha]
      simp [List.find?_cons, hj]
    · have ha2 : (a.id == id) = false := by
        cases hx : (a.id == id)
        · rfl
        · exact absurd hx ha
      rw [List.map_cons, if_neg ha]
      rw [List.any_cons, ha2, Bool.false_or] at hany
      simpa [List.find?_cons, ha2] using ih hany

theorem findJob_setJob (s : List Job) (j : Job) (id : String)
    (hid : j.id = id) : findJob (setJob s j) id = some j := by
  unfold setJob findJob
  subst hid
  by_cases h : s.any (fun x => x.id == j.id) = true
  · rw [if_pos h]
    exact find?_replace_aux j.id j (by simp) s h
  · rw [if_neg h]
    exact find?_append_singleton _ s j (by simpa using h) (by simp)

/-! ## Claim C5 -/

/-- Claim C5: for every maxAgeMs and every store state, cleanup deletes
exactly the records whose status is completed or failed and whose updatedAt
is strictly older than now - maxAgeMs, returns the number of records
removed, and never deletes a pending or processing record regardless of its
age — for both the in-memory and the Azure-table backend. -/
theorem claim_C5_cleanup (s : List Job) (es : List JobEntity)
    (maxAgeMs now : Int) :
    (∀ j, j ∈ (memCleanup s maxAgeMs now).2 ↔
      (j ∈ s ∧
        ¬(JobStatus.isTerminal j.status = true ∧
          j.updatedAt < now - maxAgeMs))) ∧
    (memCleanup s maxAgeMs now).1 + (memCleanup s maxAgeMs now).2.length =
      s.length ∧
    (∀ j, j ∈ s → (j.status = .pending ∨ j.status = .processing) →
      j ∈ (memCleanup s maxAgeMs now).2) ∧
    (∀ e, e ∈ (azureCleanup es maxAgeMs now).2 ↔
      (e ∈ es ∧
        ¬(JobStatus.isTerminal e.status = true ∧
          e.updatedAt < now - maxAgeMs))) ∧
    (azureCleanup es maxAgeMs now).1 +
      (azureCleanup es maxAgeMs now).2.length = es.length ∧
    (∀ e, e ∈ es → (e.status = .pending ∨ e.status = .processing) →
      e ∈ (azureCleanup es maxAgeMs now).2) := by
  refine ⟨?_, ?_, ?_, ?_, ?_, ?_⟩
  · intro j
    unfold memCleanup
    rw [List.mem_filter, cleanupMatch_false_iff]
  · exact filter_length_partition _ s
  · intro j hj hst
    have hterm : JobStatus.isTerminal j.status = false := by
      rcases hst with h | h <;> simp [JobStatus.isTerminal, h]
    refine List.mem_filter.2 ⟨hj, ?_⟩
    rw [cleanupMatch_false_iff]
    rintro ⟨h1, _⟩
    rw [hterm] at h1
    exact Bool.false_ne_true h1
  · intro e
    unfold azureCleanup
    rw [List.mem_filter, azureCleanupMatch_false_iff]
  · exact filter_length_partition _ es
  · intro e he hst
    have hterm : JobStatus.isTerminal e.status = false := by
      rcases hst with h | h <;> simp [JobStatus.isTerminal, h]
    refine List.mem_filter.2 ⟨he, ?_⟩
    rw [azureCleanupMatch_false_iff]
    rintro ⟨h1, _⟩
    rw [hterm] at h1
    exact Bool.false_ne_true h1

/-- Witness for claim C5 at a concrete store: a pending job older than the
window survives, a completed job older than the window is removed, and the
returned count is the number removed. -/
theorem claim_C5_cleanup_witness :
    jobPendOld ∈ (memCleanup [jobDoneOld, jobPendOld] 1000 5000).2 ∧
    jobDoneOld ∉ (memCleanup [jobDoneOld, jobPendOld] 1000 5000).2 ∧
    (memCleanup [jobDoneOld, jobPendOld] 1000 5000).1 = 1 := by
  have h := claim_C5_cleanup [jobDoneOld, jobPendOld] [] 1000 5000
  refine ⟨h.2.2.1 jobPendOld (by simp) (Or.inl rfl), ?_, by decide⟩
  intro hmem
  have := (h.1 jobDoneOld).1 hmem
  exact this.2 (by decide)

/-! ## Claim C10 -/

/-- Claim C10: for every requested path under /videos/, if the extracted
filename contains ".." or "/" the handler returns 403 Forbidden without
touching the filesystem; any filesystem lookup it does perform is for
`videosDir ++ "/" ++ filename` with a filename free of ".." and "/", hence
directly inside the videos directory. -/
theorem claim_C10_serveVideo (videosDir pathname : String) :
    ((strIncludes (extractFilename pathname) dotDot = true ∨
      strIncludes (extractFilename pathname) slash = true) →
      serveVideo videosDir pathname = ServeOutcome.forbidden) ∧
    (∀ p, serveVideo videosDir pathname = ServeOutcome.fsLookup p →
      p = videosDir ++ slash ++ extractFilename pathname ∧
      strIncludes (extractFilename pathname) dotDot = false ∧
      strIncludes (extractFilename pathname) slash = false) := by
  constructor
  · intro h
    rcases h with h | h <;> simp [serveVideo, h]
  · intro p hp
    by_cases hd : strIncludes (extractFilename pathname) dotDot = true
    · simp [serveVideo, hd] at hp
    · by_cases hs : strIncludes (extractFilename pathname) slash = true
      · simp [serveVideo, hs] at hp
      · simp at hd hs
        simp [serveVideo, hd, hs] at hp
        exact ⟨hp.symm, hd, hs⟩

/-- Witness for claim C10: a traversal attempt is rejected and a clean
filename is looked up directly inside the videos directory. -/
theorem claim_C10_serveVideo_witness :
    serveVideo ("videos") ("/videos/../etc/passwd") = ServeOutcome.forbidden ∧
    serveVideo ("videos") ("/videos/a.mp4") = ServeOutcome.fsLookup ("videos/a.mp4") := by
  constructor
  · exact (claim_C10_serveVideo ("videos") ("/videos/../etc/passwd")).1
      (Or.inl (by decide))
  · decide

/-! ## Claim C4 -/

/-- Claim C4 counterexample: for an animation whose timing reports an
iteration count of 0, the claim's maximum (`iterationDuration ×
iterationCount + delay` = 0) is exceeded — `__seekTo` falls back to an
iteration count of 1 (`timing.iterations || 1`) and writes 50, which is
not `min(50, 0)`. -/
theorem claim_C4_counterexample :
    seekWrite (some animZeroIter) 50 = 50 ∧
    specSeekMax animZeroIter = 0 ∧
    ¬(seekWrite (some animZeroIter) 50 ≤ specSeekMax animZeroIter) := by
  refine ⟨?_, ?_, ?_⟩ <;>
    norm_num [seekWrite, seekMaxTime, specSeekMax, iterOr1, jsOr,
      animZeroIter]

/-- Claim C4 (amended): `seekTo(t)` always writes `min(t, maximum)` and so
never goes beyond the computed maximum, where the maximum for an unbounded
iteration count is exactly one iteration's duration, and for a finite
nonzero iteration count is `iterationDuration × iterationCount + delay`
(a missing or zero iteration count is treated as 1). -/
theorem claim_C4_seek_clamped (t : AnimTiming) (timeMs : ℚ) :
    seekWrite (some t) timeMs = min timeMs (seekMaxTime t) ∧
    seekWrite (some t) timeMs ≤ seekMaxTime t ∧
    (t.iterations = some JsIter.inf →
      seekMaxTime t = jsOr t.duration 0) ∧
    (∀ c : ℚ, c ≠ 0 → t.iterations = some (JsIter.num c) →
      seekMaxTime t = jsOr t.duration 0 * c + jsOr t.delay 0) ∧
    (t.iterations = none →
      seekMaxTime t = jsOr t.duration 0 * 1 + jsOr t.delay 0) := by
  refine ⟨rfl, min_le_right _ _, ?_, ?_, ?_⟩
  · intro h
    simp [seekMaxTime, h]
  · intro c hc h
    simp [seekMaxTime, h, iterOr1, hc]
  · intro h
    simp [seekMaxTime, h, iterOr1]

/-- Witness for the amended claim C4: a finite animation with duration
100, 2 iterations and delay 5 has maximum 205 and a seek to 1000 is
clamped to at most 205. -/
theorem claim_C4_seek_clamped_witness :
    seekMaxTime animTwoIter = 205 ∧
    seekWrite (some animTwoIter) 1000 ≤ 205 := by
  have h := claim_C4_seek_clamped animTwoIter 1000
  have hmax := h.2.2.2.1 2 (by norm_num) rfl
  have hm : seekMaxTime animTwoIter = 205 := by
    rw [hmax]
    norm_num [jsOr, animTwoIter]
  refine ⟨hm, ?_⟩
  have h2 := h.2.1
  rw [hm] at h2
  exact h2

/-! ## Claim C9 -/

/-- Claim C9: for every descriptor, create stores a new record with
status pending and both timestamps set to now; the volatile backend's
create always succeeds, and the durable backend's create fails exactly
when the generated identifier collides with an existing record's row
key — so in both backends a failure implies a collision. -/
theorem claim_C9_create (s : List Job) (es : List JobEntity)
    (id : String) (req : JobRequest) (now : Int) :
    ((memCreate s (newVideoJob id req) now).1.status = JobStatus.pending ∧
     (memCreate s (newVideoJob id req) now).1.createdAt = now ∧
     (memCreate s (newVideoJob id req) now).1.updatedAt = now ∧
     findJob (memCreate s (newVideoJob id req) now).2 id =
       some (memCreate s (newVideoJob id req) now).1) ∧
    (azureCreate es (newVideoJob id req) now = none ↔
      ∃ e ∈ es, e.rowKey = id) ∧
    (∀ j s2, azureCreate es (newVideoJob id req) now = some (j, s2) →
      j.status = JobStatus.pending ∧ j.createdAt = now ∧
      j.updatedAt = now ∧ azureGet s2 id = some j) := by
  refine ⟨⟨rfl, rfl, rfl, ?_⟩, ?_, ?_⟩
  · exact findJob_setJob s ((newVideoJob id req).toJob now) id rfl
  · unfold azureCreate
    by_cases h : es.any (fun e => e.rowKey == id) = true
    · simp only [newVideoJob] at *
      simp [h]
      rcases List.any_eq_true.1 h with ⟨e, he, hek⟩
      exact ⟨e, he, by simpa using hek⟩
    · simp only [newVideoJob] at *
      simp [h]
      intro e he hek
      exact h (List.any_eq_true.2 ⟨e, he, by simpa using hek⟩)
  · intro j s2 hj
    unfold azureCreate at hj
    by_cases h : es.any (fun e => e.rowKey == id) = true
    · simp only [newVideoJob] at hj h
      simp [h] at hj
    · simp only [newVideoJob] at hj h
      simp [h] at hj
      obtain ⟨hj1, hj2⟩ := hj
      subst hj1 hj2
      refine ⟨rfl, rfl, rfl, ?_⟩
      unfold azureGet
      rw [find?_append_singleton _ es _ (by simpa using h)
        (by simp [jobToEntity, NewJob.toJob])]
      simp [entityToJob, jobToEntity, NewJob.toJob, newVideoJob, strOpt]

/-- Witness for claim C9: a fresh id is stored pending with timestamps 42;
a colliding row key makes the durable create fail. -/
theorem claim_C9_create_witness :
    (memCreate [] (newVideoJob ("j1") req0) 42).1.status =
      JobStatus.pending ∧
    (memCreate [] (newVideoJob ("j1") req0) 42).1.updatedAt = 42 ∧
    azureCreate [entDoneOld] (newVideoJob ("done") req0) 42 = none := by
  have h1 := claim_C9_create [] [entDoneOld] ("j1") req0 42
  have h2 := claim_C9_create [] [entDoneOld] ("done") req0 42
  exact ⟨h1.1.1, h1.1.2.2.1, (h2.2.1).2 ⟨entDoneOld, by simp, by decide⟩⟩

/-! ## Claim C8 -/

theorem strOpt_idem (y : String) : strOpt ((strOpt y).getD "") = strOpt y := by
  by_cases h : y = ""
  · simp [strOpt, h]
  · simp [strOpt, h]

theorem find?_replace_entity (id : String) (e2 : JobEntity)
    (he : (e2.rowKey == id) = true) :
    ∀ s : List JobEntity, s.any (fun x => x.rowKey == id) = true →
      (s.map (fun x => if x.rowKey == id then e2 else x)).find?
        (fun x => x.rowKey == id) = some e2 := by
  intro s
  induction s with
  | nil => intro h; simp at h
  | cons a t ih =>
    intro hany
    by_cases ha : (a.rowKey == id) = true
    · rw [List.map_cons, if_pos ha]
      simp [List.find?_cons, he]
    · have ha2 : (a.rowKey == id) = false := by
        cases hx : (a.rowKey == id)
        · rfl
        · exact absurd hx ha
      rw [List.map_cons, if_neg ha]
      rw [List.any_cons, ha2, Bool.false_or] at hany
      simpa [List.find?_cons, ha2] using ih hany

/-- Claim C8: for every existing job id, update merges exactly the
provided fields — every field not named in the update object is
unchanged — sets updatedAt to now (monotonically non-decreasing whenever
the clock is), and for an unknown id returns a not-found outcome leaving
the store unchanged; for the durable backend the same holds for the
record observable through get, across the entity encoding. -/
theorem claim_C8_update (s : List Job) (es : List JobEntity) (id : String)
    (u : JobUpdates) (now : Int) :
    (findJob s id = none → memUpdate s id u now = (none, s)) ∧
    (∀ j, findJob s id = some j →
      (memUpdate s id u now).1 = some (applyUpdates j u now) ∧
      (applyUpdates j u now).updatedAt = now ∧
      (applyUpdates j u now).id = j.id ∧
      (applyUpdates j u now).createdAt = j.createdAt ∧
      (u.status = none → (applyUpdates j u now).status = j.status) ∧
      (∀ v, u.status = some v → (applyUpdates j u now).status = v) ∧
      (u.request = none → (applyUpdates j u now).request = j.request) ∧
      (u.progress = none → (applyUpdates j u now).progress = j.progress) ∧
      (∀ v, u.progress = some v → (applyUpdates j u now).progress = v) ∧
      (u.result = none → (applyUpdates j u now).result = j.result) ∧
      (∀ v, u.result = some v → (applyUpdates j u now).result = v) ∧
      (u.error = none → (applyUpdates j u now).error = j.error) ∧
      (∀ v, u.error = some v → (applyUpdates j u now).error = v) ∧
      (j.updatedAt ≤ now → j.updatedAt ≤ (applyUpdates j u now).updatedAt) ∧
      findJob (memUpdate s id u now).2 id = some (applyUpdates j u now) ∧
      (∀ x, x ∈ s → ¬(x.id = id) → x ∈ (memUpdate s id u now).2)) ∧
    (azureGet es id = none → azureUpdate es id u now = (none, es)) ∧
    (∀ g, azureGet es id = some g →
      (azureUpdate es id u now).1 = some (applyUpdates g u now) ∧
      azureGet (azureUpdate es id u now).2 id =
        some (entityToJob (jobToEntity (applyUpdates g u now))) ∧
      (u.progress = none →
        (entityToJob (jobToEntity (applyUpdates g u now))).progress =
          g.progress) ∧
      (u.error = none →
        (entityToJob (jobToEntity (applyUpdates g u now))).error =
          g.error) ∧
      (u.status = none →
        (entityToJob (jobToEntity (applyUpdates g u now))).status =
          g.status) ∧
      (u.result = none →
        (entityToJob (jobToEntity (applyUpdates g u now))).result =
          g.result) ∧
      (u.request = none →
        (entityToJob (jobToEntity (applyUpdates g u now))).request =
          g.request) ∧
      (entityToJob (jobToEntity (applyUpdates g u now))).updatedAt = now ∧
      (entityToJob (jobToEntity (applyUpdates g u now))).createdAt =
        g.createdAt ∧
      (g.updatedAt ≤ now →
        g.updatedAt ≤ (applyUpdates g u now).updatedAt)) := by
  refine ⟨?_, ?_, ?_, ?_⟩
  · intro h
    unfold memUpdate
    rw [h]
  · intro j hj
    have hpred0 := List.find?_some hj
    have hpred : (j.id == id) = true := hpred0
    have hmem : j ∈ s := List.mem_of_find?_eq_some hj
    have hany : s.any (fun x => x.id == id) = true :=
      List.any_eq_true.2 ⟨j, hmem, hpred⟩
    have hupd : memUpdate s id u now =
        (some (applyUpdates j u now),
         s.map (fun x => if x.id == id then applyUpdates j u now else x)) := by
      unfold memUpdate
      rw [hj]
    refine ⟨by rw [hupd], rfl, rfl, rfl, ?_, ?_, ?_, ?_, ?_, ?_, ?_, ?_, ?_,
      ?_, ?_, ?_⟩
    · intro h; simp [applyUpdates, h]
    · intro v h; simp [applyUpdates, h]
    · intro h; simp [applyUpdates, h]
    · intro h; simp [applyUpdates, h]
    · intro v h; simp [applyUpdates, h]
    · intro h; simp [applyUpdates, h]
    · intro v h; simp [applyUpdates, h]
    · intro h; simp [applyUpdates, h]
    · intro v h; simp [applyUpdates, h]
    · intro h
      rw [show (applyUpdates j u now).updatedAt = now from rfl]
      exact h
    · rw [hupd]
      exact find?_replace_aux id (applyUpdates j u now)
        (by rw [show (applyUpdates j u now).id = j.id from rfl]; exact hpred)
        s hany
    · intro x hx hne
      rw [hupd]
      refine List.mem_map.2 ⟨x, hx, ?_⟩
      rw [if_neg]
      intro hcontra
      exact hne (by simpa using hcontra)
  · intro h
    unfold azureUpdate
    rw [h]
  · intro g hg
    obtain ⟨e, he, heg⟩ := Option.map_eq_some'.1 hg
    have hpred0 := List.find?_some he
    have hpred : (e.rowKey == id) = true := hpred0
    have hmem : e ∈ es := List.mem_of_find?_eq_some he
    have hany : es.any (fun x => x.rowKey == id) = true :=
      List.any_eq_true.2 ⟨e, hmem, hpred⟩
    have hgid : g.id = e.rowKey := by rw [← heg]; rfl
    have hupd : azureUpdate es id u now =
        (some (applyUpdates g u now),
         es.map (fun x => if x.rowKey == id then
           jobToEntity (applyUpdates g u now) else x)) := by
      unfold azureUpdate
      rw [hg]
    refine ⟨by rw [hupd], ?_, ?_, ?_, ?_, ?_, ?_, rfl, rfl, ?_⟩
    · rw [hupd]
      unfold azureGet
      rw [find?_replace_entity id (jobToEntity (applyUpdates g u now))
        (by rw [show (jobToEntity (applyUpdates g u now)).rowKey = g.id
                  from rfl, hgid]
            exact hpred)
        es hany]
      rfl
    · intro h
      have hgp : g.progress = strOpt e.progress := by rw [← heg]; rfl
      rw [show (entityToJob (jobToEntity (applyUpdates g u now))).progress =
            strOpt ((applyUpdates g u now).progress.getD "") from rfl]
      rw [show (applyUpdates g u now).progress = u.progress.getD g.progress
            from rfl, h]
      rw [show (none : Option (Option String)).getD g.progress = g.progress
            from rfl, hgp]
      exact strOpt_idem e.progress
    · intro h
      have hge : g.error = strOpt e.error := by rw [← heg]; rfl
      rw [show (entityToJob (jobToEntity (applyUpdates g u now))).error =
            strOpt ((applyUpdates g u now).error.getD "") from rfl]
      rw [show (applyUpdates g u now).error = u.error.getD g.error
            from rfl, h]
      rw [show (none : Option (Option String)).getD g.error = g.error
            from rfl, hge]
      exact strOpt_idem e.error
    · intro h; simp [entityToJob, jobToEntity, applyUpdates, h]
    · intro h; simp [entityToJob, jobToEntity, applyUpdates, h]
    · intro h; simp [entityToJob, jobToEntity, applyUpdates, h]
    · intro h
      rw [show (applyUpdates g u now).updatedAt = now from rfl]
      exact h

/-- Witness for claim C8: a progress-only update leaves status unchanged,
stamps updatedAt, and an unknown id is a not-found outcome with the store
unchanged. -/
theorem claim_C8_update_witness :
    (applyUpdates jobPendOld (updProgress ("hi")) 5).updatedAt = 5 ∧
    (applyUpdates jobPendOld (updProgress ("hi")) 5).status =
      jobPendOld.status ∧
    memUpdate [] ("zzz") (updProgress ("hi")) 5 = (none, []) := by
  have h := claim_C8_update [jobPendOld] [] ("pend") (updProgress ("hi")) 5
  have h2 := h.2.1 jobPendOld (by decide)
  exact ⟨h2.2.1, h2.2.2.2.2.1 rfl,
    (claim_C8_update [] [] ("zzz") (updProgress ("hi")) 5).1 rfl⟩

/-! ## Claim C2 -/

theorem procUploadUpdates_status_none (o : ProcOracle) :
    ∀ u ∈ procUploadUpdates o, u.status = none := by
  intro u hu
  unfold procUploadUpdates at hu
  by_cases hb : o.blobEnabled = true
  · rw [if_pos hb] at hu
    cases hbu : o.blobUrl with
    | none => rw [hbu] at hu; simp at hu
    | some v =>
      rw [hbu] at hu
      cases ht : o.recResult.thumbnailPath with
      | none => rw [ht] at hu; simp at hu
      | some p =>
        rw [ht] at hu
        simp at hu
        rw [hu]
        rfl
  · rw [if_neg hb] at hu
    simp at hu

theorem procBodyRest_status_none (o : ProcOracle) :
    ∀ u ∈ procBodyRest o, u.status = none := by
  intro u hu
  unfold procBodyRest at hu
  rcases List.mem_cons.1 hu with h | h
  · rw [h]; rfl
  · rcases List.mem_append.1 h with h2 | h2
    · rcases List.mem_map.1 h2 with ⟨m, _, hm⟩
      rw [← hm]; rfl
    · by_cases hs : o.recResult.success = true
      · rw [if_pos hs] at h2
        rcases List.mem_cons.1 h2 with h3 | h3
        · rw [h3]; rfl
        · exact procUploadUpdates_status_none o u h3
      · rw [if_neg hs] at h2
        simp at h2

theorem statusTrace_processVideoJob (o : ProcOracle) (hv : o.validExc) :
    statusTrace (processVideoJob o) =
      [JobStatus.pending, JobStatus.processing,
       if o.exc = none ∧ o.recResult.success = true then JobStatus.completed
       else JobStatus.failed] := by
  have hrest : (procBodyRest o).filterMap (fun u => u.status) = [] :=
    List.filterMap_eq_nil_iff.2 (procBodyRest_status_none o)
  unfold statusTrace processVideoJob
  cases hexc : o.exc with
  | none =>
    unfold procBody
    rw [List.filterMap_append]
    rw [show (updProcessing :: procBodyRest o).filterMap
          (fun u => u.status) =
        JobStatus.processing :: (procBodyRest o).filterMap
          (fun u => u.status) from rfl]
    rw [hrest]
    unfold procTerminal
    by_cases hs : o.recResult.success = true
    · rw [if_pos hs, if_pos ⟨rfl, hs⟩]
      rfl
    · rw [if_neg hs, if_neg (fun hc => hs hc.2)]
      unfold updFailed
      rfl
  | some km =>
    obtain ⟨k, msg⟩ := km
    have hk : 1 ≤ k := hv k msg hexc
    obtain ⟨k2, rfl⟩ : ∃ k2, k = k2 + 1 := ⟨k - 1, by omega⟩
    unfold procBody
    dsimp only
    rw [List.take_succ_cons, List.filterMap_append]
    rw [show (updProcessing :: (procBodyRest o).take k2).filterMap
          (fun u => u.status) =
        JobStatus.processing :: ((procBodyRest o).take k2).filterMap
          (fun u => u.status) from rfl]
    have htake : ((procBodyRest o).take k2).filterMap
        (fun u => u.status) = [] :=
      List.filterMap_eq_nil_iff.2 (fun u hu =>
        procBodyRest_status_none o u
          ((List.take_sublist k2 (procBodyRest o)).subset hu))
    rw [htake, if_neg (fun hc => by cases hc.1)]
    rfl

/-- Claim C2: for every job, the stored status only ever transitions along
pending → processing → {completed | failed}: the processor first sets
processing and ends with exactly one terminal status, and the status
sequence never contains two terminal states. -/
theorem claim_C2_status_transitions (o : ProcOracle) (hv : o.validExc) :
    (statusTrace (processVideoJob o) =
       [JobStatus.pending, JobStatus.processing, JobStatus.completed] ∨
     statusTrace (processVideoJob o) =
       [JobStatus.pending, JobStatus.processing, JobStatus.failed]) ∧
    List.Chain' (fun a b => allowedTransition a b = true)
      (statusTrace (processVideoJob o)) ∧
    ((statusTrace (processVideoJob o)).filter
      (fun st => JobStatus.isTerminal st)).length = 1 := by
  have h := statusTrace_processVideoJob o hv
  by_cases hc : o.exc = none ∧ o.recResult.success = true
  · rw [if_pos hc] at h
    rw [h]
    exact ⟨Or.inl rfl, by simp [List.chain'_cons, allowedTransition],
      by decide⟩
  · rw [if_neg hc] at h
    rw [h]
    exact ⟨Or.inr rfl, by simp [List.chain'_cons, allowedTransition],
      by decide⟩

/-- Witness for claim C2: a successful recording run writes exactly the
status sequence pending, processing, completed. -/
theorem claim_C2_status_transitions_witness :
    statusTrace (processVideoJob oracle0) =
      [JobStatus.pending, JobStatus.processing, JobStatus.completed] := by
  have h := claim_C2_status_transitions oracle0
    (fun k msg hx => by cases hx)
  rcases h.1 with h1 | h1
  · exact h1
  · exact absurd h1 (by decide)

/-! ## Recorder lemmas -/

theorem captureList_ok (env : RecorderEnv) (dir : String) (frameRate : ℚ)
    (hseek : ∀ t, env.seek t = Except.ok ())
    (hshot : ∀ k, env.screenshot k = Except.ok ()) :
    ∀ ks : List Nat, captureList env dir frameRate ks =
      Except.ok (ks.map
        (fun k => (frameTimestamp frameRate k, framePath dir k))) := by
  intro ks
  induction ks with
  | nil => rfl
  | cons k t ih =>
    unfold captureList captureFrame
    rw [hseek, hshot, ih]
    rfl

/-- Under fully successful steps, `recordStoryE` returns the full frame
list and a result that depends only on the two encoder exit codes. -/
theorem recordStoryE_stepsOk (env : RecorderEnv) (opts : RecorderOptions)
    (dir : String) (hok : env.stepsOk dir) :
    recordStoryE env opts =
      Except.ok
        ((List.range (totalFramesN (opts.duration.getD 10000)
            (opts.frameRate.getD 25))).map
          (fun k => (frameTimestamp (opts.frameRate.getD 25) k,
                     framePath dir k)),
        if env.ffmpegExit ≠ 0 then
          { success := false
            outputPath := opts.outputPath
            thumbnailPath := none
            error := some (ffmpegFailedPrefix ++ env.ffmpegStderr) }
        else if env.thumbExit ≠ 0 then
          { success := true
            outputPath := opts.outputPath
            thumbnailPath := none
            error := none }
        else
          { success := true
            outputPath := opts.outputPath
            thumbnailPath := some (thumbnailPathOf opts.outputPath)
            error := none }) := by
  obtain ⟨h1, h2, h3, h4, h5, h6, h7, h8, ⟨n, h9⟩, h10, hseek, hshot⟩ := hok
  unfold recordStoryE
  rw [h1, h2, h3, h4, h5, h6, h7, h8, h9, h10]
  dsimp only [stepBind]
  rw [captureList_ok env dir _ hseek hshot]
  dsimp only [stepBind]
  split_ifs <;> rfl

/-- Every `Except.ok` outcome of the `try` body is one of the three
returned result records. -/
theorem recordStoryE_ok_result (env : RecorderEnv) (opts : RecorderOptions)
    (fr : List (ℚ × String)) (r : RecorderResult)
    (h : recordStoryE env opts = Except.ok (fr, r)) :
    (r.success = true ∧ r.error = none ∧
      r.outputPath = opts.outputPath) ∨
    (r.success = false ∧
      r.error = some (ffmpegFailedPrefix ++ env.ffmpegStderr) ∧
      r.outputPath = opts.outputPath) := by
  unfold recordStoryE at h
  cases h1 : env.launch with
  | error e => rw [h1] at h; exact absurd h (by simp [stepBind])
  | ok u1 =>
  rw [h1] at h; dsimp only [stepBind] at h
  cases h2 : env.newPage with
  | error e => rw [h2] at h; exact absurd h (by simp [stepBind])
  | ok u2 =>
  rw [h2] at h; dsimp only [stepBind] at h
  cases h3 : env.setViewport with
  | error e => rw [h3] at h; exact absurd h (by simp [stepBind])
  | ok u3 =>
  rw [h3] at h; dsimp only [stepBind] at h
  cases h4 : env.exposeReady with
  | error e => rw [h4] at h; exact absurd h (by simp [stepBind])
  | ok u4 =>
  rw [h4] at h; dsimp only [stepBind] at h
  cases h5 : env.exposeDone with
  | error e => rw [h5] at h; exact absurd h (by simp [stepBind])
  | ok u5 =>
  rw [h5] at h; dsimp only [stepBind] at h
  cases h6 : env.goto with
  | error e => rw [h6] at h; exact absurd h (by simp [stepBind])
  | ok u6 =>
  rw [h6] at h; dsimp only [stepBind] at h
  cases h7 : raceReady env.readyAt with
  | error e => rw [h7] at h; exact absurd h (by simp [stepBind])
  | ok u7 =>
  rw [h7] at h; dsimp only [stepBind] at h
  cases h8 : env.fontsReady with
  | error e => rw [h8] at h; exact absurd h (by simp [stepBind])
  | ok u8 =>
  rw [h8] at h; dsimp only [stepBind] at h
  cases h9 : env.evalAnim with
  | error e => rw [h9] at h; exact absurd h (by simp [stepBind])
  | ok n9 =>
  rw [h9] at h; dsimp only [stepBind] at h
  cases h10 : env.mkdtemp with
  | error e => rw [h10] at h; exact absurd h (by simp [stepBind])
  | ok dir =>
  rw [h10] at h; dsimp only [stepBind] at h
  cases h11 : captureList env dir (opts.frameRate.getD 25)
      (List.range (totalFramesN (opts.duration.getD 10000)
        (opts.frameRate.getD 25))) with
  | error e => rw [h11] at h; exact absurd h (by simp [stepBind])
  | ok frames =>
  rw [h11] at h; dsimp only [stepBind] at h
  by_cases hff : env.ffmpegExit ≠ 0
  · rw [if_pos hff] at h
    right
    obtain ⟨hfr, hr⟩ : frames = fr ∧ _ = r := by
      constructor <;> [exact (Prod.mk.injEq _ _ _ _ ▸
        (Except.ok.injEq _ _ ▸ h : _)).1; exact (Prod.mk.injEq _ _ _ _ ▸
        (Except.ok.injEq _ _ ▸ h : _)).2]
    rw [← hr]
    exact ⟨rfl, rfl, rfl⟩
  · rw [if_neg hff] at h
    by_cases ht : env.thumbExit ≠ 0
    · rw [if_pos ht] at h
      left
      obtain ⟨hfr, hr⟩ : frames = fr ∧ _ = r := by
        constructor <;> [exact (Prod.mk.injEq _ _ _ _ ▸
          (Except.ok.injEq _ _ ▸ h : _)).1; exact (Prod.mk.injEq _ _ _ _ ▸
          (Except.ok.injEq _ _ ▸ h : _)).2]
      rw [← hr]
      exact ⟨rfl, rfl, rfl⟩
    · rw [if_neg ht] at h
      left
      obtain ⟨hfr, hr⟩ : frames = fr ∧ _ = r := by
        constructor <;> [exact (Prod.mk.injEq _ _ _ _ ▸
          (Except.ok.injEq _ _ ▸ h : _)).1; exact (Prod.mk.injEq _ _ _ _ ▸
          (Except.ok.injEq _ _ ▸ h : _)).2]
      rw [← hr]
      exact ⟨rfl, rfl, rfl⟩

/-! ## Claim C3 -/

/-- Claim C3: recordStory never propagates an exception — every error is
converted into a result with success=false carrying the error message —
and the error field is present exactly when success=false. -/
theorem claim_C3_no_escape (env : RecorderEnv) (opts : RecorderOptions) :
    ((recordStory env opts).success = false ↔
      (recordStory env opts).error.isSome = true) ∧
    (∀ msg, recordStoryE env opts = Except.error msg →
      recordStory env opts =
        { success := false
          outputPath := opts.outputPath
          thumbnailPath := none
          error := some msg }) ∧
    (recordStory env opts).outputPath = opts.outputPath := by
  cases hE : recordStoryE env opts with
  | error msg =>
    have hrec : recordStory env opts =
        { success := false
          outputPath := opts.outputPath
          thumbnailPath := none
          error := some msg } := by
      unfold recordStory
      rw [hE]
    refine ⟨by rw [hrec]; simp, ?_, by rw [hrec]⟩
    intro m hm
    cases hm
    rw [hrec]
  | ok pr =>
    obtain ⟨fr, r⟩ := pr
    have hr := recordStoryE_ok_result env opts fr r hE
    have hrec : recordStory env opts = r := by
      unfold recordStory
      rw [hE]
    refine ⟨?_, ?_, ?_⟩
    · rw [hrec]
      rcases hr with ⟨hs, he, _⟩ | ⟨hs, he, _⟩ <;> rw [hs, he] <;> simp
    · intro m hm
      cases hm
    · rw [hrec]
      rcases hr with ⟨_, _, ho⟩ | ⟨_, _, ho⟩ <;> exact ho

/-- Witness for claim C3: a browser-launch failure is converted into a
failure result carrying the launch error message. -/
theorem claim_C3_no_escape_witness :
    recordStory envLaunchFail opts0 =
      { success := false
        outputPath := opts0.outputPath
        thumbnailPath := none
        error := some ("browser did not start") } := by
  exact (claim_C3_no_escape envLaunchFail opts0).2.1
    ("browser did not start") rfl

/-! ## Claim C1 -/

/-- Claim C1: for every duration and frame rate, the capture loop computes
totalFrames = ceil(durationMs / 1000 × frameRate), and for every frame
index k below totalFrames it seeks to k × (1000 / frameRate) ms and
persists exactly one frame file per index under the sequentially
zero-padded name frame_XXXX.png; duration=10000 and frameRate=25 give 250
frames with frame k at 40·k ms. -/
theorem claim_C1_capture_loop (env : RecorderEnv) (d r : ℚ)
    (dir url out : String) (hok : env.stepsOk dir) :
    (recordedFrames env
        { url := url, outputPath := out, frameRate := some r,
          duration := some d } =
      Except.ok ((List.range (totalFramesN d r)).map
        (fun k => (frameTimestamp r k, framePath dir k)))) ∧
    totalFramesZ d r = ⌈d / 1000 * r⌉ ∧
    (∀ frames, recordedFrames env
        { url := url, outputPath := out, frameRate := some r,
          duration := some d } = Except.ok frames →
      frames.length = totalFramesN d r ∧
      ∀ k, (hk : k < frames.length) →
        frames[k] = (frameTimestamp r k, framePath dir k)) ∧
    totalFramesN 10000 25 = 250 ∧
    (∀ k : Nat, frameTimestamp 25 k = 40 * (k : ℚ)) := by
  have hE := recordStoryE_stepsOk env
    { url := url, outputPath := out, frameRate := some r,
      duration := some d } dir hok
  have hframes : recordedFrames env
      { url := url, outputPath := out, frameRate := some r,
        duration := some d } =
      Except.ok ((List.range (totalFramesN d r)).map
        (fun k => (frameTimestamp r k, framePath dir k))) := by
    unfold recordedFrames
    rw [hE]
    rfl
  refine ⟨hframes, rfl, ?_, ?_, ?_⟩
  · intro frames hf
    rw [hframes] at hf
    cases hf
    constructor
    · simp
    · intro k hk
      simp
  · unfold totalFramesN totalFramesZ
    norm_num
    rfl
  · intro k
    unfold frameTimestamp frameIntervalMs
    norm_num [mul_comm]

/-- Witness for claim C1: duration 200 ms at 25 fps gives 5 frames at
0, 40, 80, 120, 160 ms under zero-padded names. -/
theorem claim_C1_capture_loop_witness :
    recordedFrames okEnv
      { url := opts0.url, outputPath := opts0.outputPath,
        frameRate := some 25, duration := some 200 } =
      Except.ok ((List.range (totalFramesN 200 25)).map
        (fun k => (frameTimestamp 25 k, framePath ("tmp") k))) ∧
    totalFramesN 200 25 = 5 ∧
    (List.range (totalFramesN 200 25)).map
        (fun k => (frameTimestamp 25 k, framePath ("tmp") k)) =
      [(0, "tmp/frame_0000.png"), (40, "tmp/frame_0001.png"),
       (80, "tmp/frame_0002.png"), (120, "tmp/frame_0003.png"),
       (160, "tmp/frame_0004.png")] := by
  have h := claim_C1_capture_loop okEnv 200 25 ("tmp") opts0.url
    opts0.outputPath okEnv_stepsOk
  have h5 : totalFramesN 200 25 = 5 := by
    unfold totalFramesN totalFramesZ
    norm_num
    rfl
  refine ⟨h.1, h5, ?_⟩
  rw [h5, show List.range 5 = [0, 1, 2, 3, 4] from rfl]
  simp only [List.map_cons, List.map_nil, List.cons.injEq, Prod.mk.injEq,
    and_true]
  norm_num [frameTimestamp, frameIntervalMs]
  decide

/-! ## Claim C7 -/

/-- Claim C7: a non-zero exit status from the main encoding invocation
makes recordStory return success=false with the encoder's stderr in the
error message, whereas a non-zero exit status from the thumbnail
extraction is non-fatal: success=true with the output path and
thumbnailPath absent. -/
theorem claim_C7_encoder_failures (env : RecorderEnv)
    (opts : RecorderOptions) (dir : String) (hok : env.stepsOk dir) :
    (env.ffmpegExit ≠ 0 →
      recordStory env opts =
        { success := false
          outputPath := opts.outputPath
          thumbnailPath := none
          error := some (ffmpegFailedPrefix ++ env.ffmpegStderr) }) ∧
    (env.ffmpegExit = 0 → env.thumbExit ≠ 0 →
      recordStory env opts =
        { success := true
          outputPath := opts.outputPath
          thumbnailPath := none
          error := none }) := by
  have hE := recordStoryE_stepsOk env opts dir hok
  constructor
  · intro hff
    unfold recordStory
    rw [hE]
    dsimp only
    rw [if_pos hff]
  · intro hff ht
    unfold recordStory
    rw [hE]
    dsimp only
    rw [if_neg (fun hc => hc hff), if_pos ht]

/-- Witness for claim C7: an encoder failure yields a failure result with
the diagnostic stream; a thumbnail failure still yields success with no
thumbnail path. -/
theorem claim_C7_encoder_failures_witness :
    recordStory envFfmpegFail opts0 =
      { success := false
        outputPath := opts0.outputPath
        thumbnailPath := none
        error := some (ffmpegFailedPrefix ++ ("encoder exploded")) } ∧
    recordStory envThumbFail opts0 =
      { success := true
        outputPath := opts0.outputPath
        thumbnailPath := none
        error := none } := by
  constructor
  · exact (claim_C7_encoder_failures envFfmpegFail opts0 ("tmp")
      ⟨rfl, rfl, rfl, rfl, rfl, rfl, rfl, rfl, ⟨3, rfl⟩, rfl,
       fun _ => rfl, fun _ => rfl⟩).1 (by decide)
  · exact (claim_C7_encoder_failures envThumbFail opts0 ("tmp")
      ⟨rfl, rfl, rfl, rfl, rfl, rfl, rfl, rfl, ⟨3, rfl⟩, rfl,
       fun _ => rfl, fun _ => rfl⟩).2 rfl (by decide)

/-! ## Claim C6 -/

/-- Claim C6: if the page never invokes the ready hook within 30 seconds
of navigation, the recording fails with the timeout error and the
background processor marks the job failed with that message — the job's
status sequence ends in failed, never stuck at processing. -/
theorem claim_C6_ready_timeout (env : RecorderEnv)
    (opts : RecorderOptions) (o : ProcOracle) (j0 : Job) (now : Int)
    (h1 : env.launch = Except.ok ()) (h2 : env.newPage = Except.ok ())
    (h3 : env.setViewport = Except.ok ())
    (h4 : env.exposeReady = Except.ok ())
    (h5 : env.exposeDone = Except.ok ()) (h6 : env.goto = Except.ok ())
    (hready : ∀ t, env.readyAt = some t → ¬t < 30000)
    (ho : o.recResult = recordStory env opts) (hexc : o.exc = none) :
    recordStory env opts =
      { success := false
        outputPath := opts.outputPath
        thumbnailPath := none
        error := some readyTimeoutMsg } ∧
    strIncludes readyTimeoutMsg ("Timeout") = true ∧
    statusTrace (processVideoJob o) =
      [JobStatus.pending, JobStatus.processing, JobStatus.failed] ∧
    (applyTrace j0 (processVideoJob o) now).status = JobStatus.failed ∧
    (applyTrace j0 (processVideoJob o) now).error =
      some readyTimeoutMsg := by
  have hrace : raceReady env.readyAt = Except.error readyTimeoutMsg := by
    unfold raceReady
    cases hh : env.readyAt with
    | none => rfl
    | some t =>
      dsimp only
      rw [if_neg (hready t hh)]
  have hE : recordStoryE env opts = Except.error readyTimeoutMsg := by
    unfold recordStoryE
    rw [h1]; dsimp only [stepBind]
    rw [h2]; dsimp only [stepBind]
    rw [h3]; dsimp only [stepBind]
    rw [h4]; dsimp only [stepBind]
    rw [h5]; dsimp only [stepBind]
    rw [h6]; dsimp only [stepBind]
    rw [hrace]
  have hrec : recordStory env opts =
      { success := false
        outputPath := opts.outputPath
        thumbnailPath := none
        error := some readyTimeoutMsg } := by
    unfold recordStory
    rw [hE]
  have hsucc : o.recResult.success = false := by rw [ho, hrec]
  have hv : o.validExc := by
    intro k msg h
    rw [hexc] at h
    cases h
  have htrace := statusTrace_processVideoJob o hv
  rw [if_neg (fun hc => Bool.false_ne_true (hsucc ▸ hc.2))] at htrace
  have hterm : procTerminal o = updFailed (some readyTimeoutMsg) := by
    unfold procTerminal
    rw [if_neg (fun hc => Bool.false_ne_true (hsucc ▸ hc))]
    rw [ho, hrec]
  have hjob : processVideoJob o =
      procBody o ++ [updFailed (some readyTimeoutMsg)] := by
    unfold processVideoJob
    rw [hexc]
    dsimp only
    rw [hterm]
  refine ⟨hrec, by decide, htrace, ?_, ?_⟩
  · rw [hjob]
    unfold applyTrace
    rw [List.foldl_append]
    rfl
  · rw [hjob]
    unfold applyTrace
    rw [List.foldl_append]
    rfl

/-- Witness for claim C6: a page that never signals ready times out and
the processor's trace for that job ends failed with the timeout
message. -/
theorem claim_C6_ready_timeout_witness :
    recordStory envNoReady opts0 =
      { success := false
        outputPath := opts0.outputPath
        thumbnailPath := none
        error := some readyTimeoutMsg } ∧
    statusTrace (processVideoJob oracleTimeout) =
      [JobStatus.pending, JobStatus.processing, JobStatus.failed] ∧
    (applyTrace jobPendOld (processVideoJob oracleTimeout) 7).status =
      JobStatus.failed := by
  have h := claim_C6_ready_timeout envNoReady opts0 oracleTimeout
    jobPendOld 7 rfl rfl rfl rfl rfl rfl
    (fun t ht => by cases ht) rfl rfl
  exact ⟨h.1, h.2.2.1, h.2.2.2.1⟩

end Storymaker
